import Mathlib

/-!
Verification of the budget-constrained furniture combination optimizer
(`furniture_combination_optimizer.py`).

The embedding below mirrors the `FurnitureCombinationOptimizer` class.
Python floats are modelled by `ℚ`; Python dicts that the optimizer only
reads through ordered iteration or `get` are modelled by association lists
in insertion order; `pandas` CSV rows are modelled by explicit record
lists.  `round(x, 2)` is modelled by rounding to the nearest multiple of
`1/100` (Python rounds half to even, but none of the values reached in
this development ever lies exactly half way between two multiples of
`1/100`, so the two conventions agree on everything proved here).
-/

namespace FCO

/-- One similarity-search candidate, as stored in
`self.similarity_results[furniture_type]` by `load_similarity_results`
(a dict with keys `catalog_number`, `similarity_score`, `rank`). -/
structure Candidate where
  catalog_number : String
  similarity_score : ℚ
  rank : ℕ

/-- `self.similarity_results`: an insertion-ordered dict mapping each
furniture type to its (at most 3) top candidates. -/
abbrev Store := List (String × List Candidate)

/-- A price lookup table (`price_lookup` in the Python source): an
insertion-ordered dict from catalog number to price. -/
abbrev PriceLookup := List (String × ℚ)

/-- `price_lookup.get(catalog_number, 0)`: dictionary lookup with
default `0` (source lines 249 and 271). -/
def lookupPrice (pl : PriceLookup) (catalog_number : String) : ℚ :=
  ((pl.find? (fun p => p.1 == catalog_number)).map Prod.snd).getD 0

/-- One entry of `combination_details` (source lines 277-283). -/
structure CombItem where
  furniture_type : String
  catalog_number : String
  similarity_score : ℚ
  rank : ℕ
  price : ℚ

/-- One emitted combination dict (source lines 287-292). -/
structure Combination where
  total_price : ℚ
  total_similarity : ℚ
  items : List CombItem
  budget_remaining : ℚ

/-- `itertools.product`: the Cartesian product of a list of lists, with
the first list varying slowest, exactly as iterated at source line 263. -/
def cartProd {α : Type} : List (List α) → List (List α)
  | [] => [[]]
  | l :: ls => l.flatMap (fun a => (cartProd ls).map (fun t => a :: t))

/-- The raw (pre-filter) tuples enumerated by the `itertools.product`
loop: one candidate from each furniture type, in the dict order of
`self.similarity_results` (source lines 260-263). -/
def rawCombos (store : Store) : List (List Candidate) :=
  cartProd (store.map Prod.snd)

/-- The sum of resolved prices of a tuple of candidates, each resolved by
`price_lookup.get(catalog_number, 0)` (source lines 271 and 274). -/
def tupleTotalPrice (pl : PriceLookup) (tup : List Candidate) : ℚ :=
  (tup.map (fun it => lookupPrice pl it.catalog_number)).sum

/-- The body of the `itertools.product` loop (source lines 263-292): build
the `combination_details` rows, accumulate `total_price` and
`total_similarity`, and keep the combination only when
`total_price <= self.budget and total_price > 0`. -/
def combineTuple (pl : PriceLookup) (budget : ℚ) (fts : List String)
    (tup : List Candidate) : Option Combination :=
  let items := (fts.zip tup).map (fun p =>
    { furniture_type := p.1
      catalog_number := p.2.catalog_number
      similarity_score := p.2.similarity_score
      rank := p.2.rank
      price := lookupPrice pl p.2.catalog_number : CombItem })
  let total_price := (items.map (fun it => it.price)).sum
  let total_similarity := (items.map (fun it => it.similarity_score)).sum
  if total_price ≤ budget ∧ 0 < total_price then
    some { total_price := total_price
           total_similarity := total_similarity
           items := items
           budget_remaining := budget - total_price }
  else none

/-- The `combinations` list as it stands after the enumeration loop and
before the final sort (source lines 242-292), in enumeration order. -/
def filteredCombos (store : Store) (pl : PriceLookup) (budget : ℚ) :
    List Combination :=
  (rawCombos store).filterMap (combineTuple pl budget (store.map Prod.fst))

/-- Insert a combination into an already-sorted (non-increasing by
`total_similarity`) list, after every earlier element with a strictly
greater key and before the first element with a smaller-or-equal key. -/
def insertDesc (c : Combination) : List Combination → List Combination
  | [] => [c]
  | d :: ds =>
    if c.total_similarity < d.total_similarity then d :: insertDesc c ds
    else c :: d :: ds

/-- `combinations.sort(key=lambda x: x['total_similarity'], reverse=True)`
(source line 295).  Python's `list.sort` is a stable sort; a stable sort
by a fixed key is unique, so this stable insertion sort computes the same
list. -/
def sortDesc : List Combination → List Combination
  | [] => []
  | c :: cs => insertDesc c (sortDesc cs)

/-- `generate_combinations` (source lines 233-298): enumerate the
Cartesian product, filter by budget, and sort by total similarity
descending. -/
def generate_combinations (store : Store) (pl : PriceLookup) (budget : ℚ) :
    List Combination :=
  sortDesc (filteredCombos store pl budget)

/-- Python's `str.lower()` for the ASCII furniture-type names used here. -/
def pyLower (s : String) : String := ⟨s.data.map Char.toLower⟩

/-- The hard-coded `price_ranges` table of
`_get_estimated_price_for_type` (source lines 208-217). -/
def price_ranges : List (String × ℚ × ℚ) :=
  [("sofa", (800, 2500)),
   ("chair", (200, 800)),
   ("table", (300, 1200)),
   ("lamp", (100, 400)),
   ("rug", (200, 800)),
   ("bench", (300, 1000)),
   ("nightstand", (150, 600)),
   ("lighting", (100, 400))]

/-- The `(min_price, max_price)` range chosen at source lines 220-224:
the table entry for `furniture_type.lower()` if present, else the
default range `(200, 800)`. -/
def priceRangeFor (furniture_type : String) : ℚ × ℚ :=
  ((price_ranges.find? (fun p => p.1 == pyLower furniture_type)).map
    Prod.snd).getD (200, 800)

/-- Python's `round(x, 2)`: round to the nearest multiple of `1/100`
(see the module comment about half-way cases, which never occur here). -/
def round2 (x : ℚ) : ℚ := (round (x * 100) : ℚ) / 100

/-- `_get_estimated_price_for_type` (source lines 205-231):
`rank_factor = (4 - rank) / 3` and
`round(min_price + (max_price - min_price) * rank_factor, 2)`. -/
def get_estimated_price_for_type (furniture_type : String) (rank : ℕ) : ℚ :=
  round2 ((priceRangeFor furniture_type).1 +
    ((priceRangeFor furniture_type).2 - (priceRangeFor furniture_type).1) *
      (((4 : ℚ) - (rank : ℚ)) / 3))

/-- `_get_estimated_prices` (source lines 192-203): for every furniture
type, assign each candidate the estimated price at its 0-based
`enumerate` position. -/
def get_estimated_prices (store : Store) : PriceLookup :=
  store.flatMap (fun c => c.2.enum.map (fun p =>
    (p.2.catalog_number, get_estimated_price_for_type c.1 p.1)))

/-- `matched_items` as counted at source lines 154-162: the number of
similarity-result items whose catalog number appears in the catalog's
price lookup. -/
def matchedCount (store : Store) (pl : PriceLookup) : ℕ :=
  (store.flatMap (fun c => c.2)).countP
    (fun it => (pl.find? (fun p => p.1 == it.catalog_number)).isSome)

/-- The decision logic of `get_furniture_prices` (source lines 122-190)
once the catalog CSV has been parsed into `catalog_prices`: when no
similarity-result catalog number matches the catalog, fall back to the
estimated prices for every item; otherwise return the parsed catalog
lookup unchanged (the partially-matched case only prints a warning).
The missing-file and exception paths also return the estimated prices. -/
def get_furniture_prices (store : Store) (catalog_prices : PriceLookup) :
    PriceLookup :=
  if matchedCount store catalog_prices = 0 then get_estimated_prices store
  else catalog_prices

/-- One row of `similarity_results.csv` as read by
`load_similarity_results` (source lines 98-110). -/
structure Row where
  image_name : String
  catalog_number : String
  similarity_score : ℚ
  rank : ℕ

/-- Drop a suffix from a string when it is present.  The Python source
uses `image_name.replace('_extracted_grayscale.png', '')` (line 99);
for the image names produced by the pipeline the pattern occurs at most
once, as a suffix, where the two operations agree. -/
def pyStripSuffix (suffix s : String) : String :=
  if suffix.data.isSuffixOf s.data then
    ⟨s.data.take (s.data.length - suffix.data.length)⟩
  else s

/-- Build the stored candidate dict entry from a CSV row
(source lines 105-110). -/
def toCandidate (r : Row) : Candidate :=
  { catalog_number := r.catalog_number
    similarity_score := r.similarity_score
    rank := r.rank }

/-- `df['image_name'].unique()`: the distinct values in order of first
appearance. -/
def uniqueKeys : List String → List String
  | [] => []
  | x :: xs => x :: uniqueKeys (xs.filter (fun y => !(y == x)))
termination_by l => l.length
decreasing_by
  simp only [List.length_cons]
  exact Nat.lt_succ_of_le (List.length_filter_le _ _)

/-- `load_similarity_results` (source lines 77-120) on the parsed rows of
`similarity_results.csv`: fail (return `False`, modelled `none`) when the
file is missing or empty, else group rows by image name in order of first
appearance, keep the top 3 per furniture type, and strip the
`_extracted_grayscale.png` suffix to obtain the furniture type.  There is
no per-category emptiness check anywhere in the function. -/
def load_similarity_results (rows : List Row) : Option Store :=
  if rows.isEmpty then none
  else some ((uniqueKeys (rows.map (fun r => r.image_name))).map (fun name =>
    (pyStripSuffix "_extracted_grayscale.png" name,
     ((rows.filter (fun r => r.image_name == name)).take 3).map toCandidate)))

/-- One CSV row written by `save_combinations_to_csv`
(source lines 321-333). -/
structure OutputRow where
  combination_rank : ℕ
  total_price : ℚ
  total_similarity : ℚ
  budget_remaining : ℚ
  furniture_type : String
  catalog_number : String
  similarity_score : ℚ
  item_rank : ℕ
  price : ℚ

/-- `save_combinations_to_csv` (source lines 304-340): one row per
(combination, item) pair, with `combination_rank` the 1-based position
of the combination in the ranked list. -/
def save_combinations_to_csv (combos : List Combination) : List OutputRow :=
  (combos.enum.map (fun p => p.2.items.map (fun it =>
    { combination_rank := p.1 + 1
      total_price := p.2.total_price
      total_similarity := p.2.total_similarity
      budget_remaining := p.2.budget_remaining
      furniture_type := it.furniture_type
      catalog_number := it.catalog_number
      similarity_score := it.similarity_score
      item_rank := it.rank
      price := it.price : OutputRow }))).flatten

/-- The observable outcome of one run of `main` (source lines 381-432)
after the query has been selected and the budget parsed. -/
inductive Outcome where
  | loadFailed
  | pricesFailed
  | noCombinations
  | success : List OutputRow → Outcome

/-- `main` (source lines 381-432), from the similarity rows and parsed
catalog prices on: abort when `load_similarity_results` fails; abort when
the price lookup is empty; report "no combinations found within budget"
(and mark the query `selected_sufficed = no`) when the generated list is
empty, writing no rows; otherwise write the CSV rows and succeed. -/
def mainRun (rows : List Row) (catalog_prices : PriceLookup) (budget : ℚ) :
    Outcome :=
  match load_similarity_results rows with
  | none => Outcome.loadFailed
  | some store =>
    let pl := get_furniture_prices store catalog_prices
    if pl.isEmpty then Outcome.pricesFailed
    else
      let combos := generate_combinations store pl budget
      if combos.isEmpty then Outcome.noCombinations
      else Outcome.success (save_combinations_to_csv combos)

/-- Modelled from the spec: the estimator formula the specification
documents for a candidate of 1-based rank `r` in its top-K list (K = 3):
`estimated_price = min_price + (max_price - min_price) * (K - r + 1) / K`.
This definition follows the spec's words and exists only to be compared
with `get_estimated_price_for_type`, which embeds the source. -/
def specRankEstimate (furniture_type : String) (r : ℕ) : ℚ :=
  (priceRangeFor furniture_type).1 +
    ((priceRangeFor furniture_type).2 - (priceRangeFor furniture_type).1) *
      (((3 : ℚ) - (r : ℚ) + 1) / 3)

end FCO


namespace FCO

/-! ### Concrete inputs used by the witnesses and counterexamples -/

/-- The candidate store of the spec's Scenario A. -/
def storeA : Store :=
  [("sofa", [⟨"S1", 9/10, 1⟩, ⟨"S2", 4/5, 2⟩]),
   ("table", [⟨"T1", 7/10, 1⟩])]

/-- The authoritative prices of Scenario A. -/
def plA : PriceLookup := [("S1", 1000), ("S2", 1200), ("T1", 500)]

/-- The single surviving combination of Scenario A. -/
def comboA : Combination :=
  { total_price := 1500
    total_similarity := 8/5
    items := [⟨"sofa", "S1", 9/10, 1, 1000⟩, ⟨"table", "T1", 7/10, 1, 500⟩]
    budget_remaining := 100 }

/-- A three-candidate sofa category, fed to the fallback estimator. -/
def storeEst : Store := [("sofa", [⟨"SA", 1, 1⟩, ⟨"SB", 1, 2⟩, ⟨"SC", 1, 3⟩])]

/-- A two-candidate sofa category of which only the first candidate has an
authoritative price. -/
def storePartial : Store := [("sofa", [⟨"A1", 1, 1⟩, ⟨"B1", 1, 2⟩])]

/-- A price map that knows `A1` but not `B1`. -/
def plPartial : PriceLookup := [("A1", 100)]

/-- A similarity-results file containing rows for the sofa category only. -/
def rowsSofaOnly : List Row := [⟨"sofa_extracted_grayscale.png", "S1", 1, 1⟩]

/-- The store `load_similarity_results` builds from `rowsSofaOnly`. -/
def storeSofaOnly : Store := [("sofa", [⟨"S1", 1, 1⟩])]

/-- A two-category, three-candidates-each store (the spec's Scenario C
shape, K = 3). -/
def storeC : Store :=
  [("sofa", [⟨"S1", 3, 1⟩, ⟨"S2", 2, 2⟩, ⟨"S3", 1, 3⟩]),
   ("table", [⟨"T1", 3, 1⟩, ⟨"T2", 2, 2⟩, ⟨"T3", 1, 3⟩])]

/-- Prices for `storeC`. -/
def plC : PriceLookup :=
  [("S1", 700), ("S2", 600), ("S3", 500), ("T1", 400), ("T2", 300), ("T3", 200)]

/-- A two-category store used by the missing-price witness. -/
def storeGap : Store :=
  [("sofa", [⟨"S1", 1, 1⟩]), ("table", [⟨"T1", 2, 1⟩])]

/-- A price map that prices `S1` but not `T1`. -/
def plGap : PriceLookup := [("S1", 300)]

/-- The tuple picking the only candidate of each category of `storeGap`. -/
def tupGap : List Candidate := [⟨"S1", 1, 1⟩, ⟨"T1", 2, 1⟩]

end FCO

namespace FCO

/-! ### Helper lemmas -/

/-- The Cartesian product has as many tuples as the product of the list
lengths. -/
theorem length_cartProd {α : Type} (ls : List (List α)) :
    (cartProd ls).length = (ls.map List.length).prod := by
  induction ls with
  | nil => simp [cartProd]
  | cons l ls ih =>
    simp only [cartProd, List.length_flatMap, List.map_map, List.map_cons,
      List.prod_cons, Function.comp]
    have hconst : (List.length ∘ fun a : α => List.map (fun t => a :: t) (cartProd ls)) =
        fun _ : α => (cartProd ls).length := by
      funext a; simp
    rw [hconst, List.map_const', List.sum_replicate, smul_eq_mul, ih, Nat.mul_comm]

/-- Every tuple of the Cartesian product has one entry per input list. -/
theorem mem_cartProd_length {α : Type} :
    ∀ {ls : List (List α)} {tup : List α}, tup ∈ cartProd ls →
      tup.length = ls.length := by
  intro ls
  induction ls with
  | nil => intro tup h; simp [cartProd] at h; simp [h]
  | cons l ls ih =>
    intro tup h
    simp only [cartProd, List.mem_flatMap, List.mem_map] at h
    obtain ⟨a, _, t, ht, rfl⟩ := h
    simp [ih ht]

/-- Mapping the second projection over a zip of equally long lists. -/
theorem map_zip_snd {α β γ : Type} (f : β → γ) :
    ∀ (l1 : List α) (l2 : List β), l1.length = l2.length →
      (l1.zip l2).map (fun p => f p.2) = l2.map f := by
  intro l1
  induction l1 with
  | nil =>
    intro l2 h
    cases l2 with
    | nil => simp
    | cons b l2 => simp at h
  | cons a l1 ih =>
    intro l2 h
    cases l2 with
    | nil => simp at h
    | cons b l2 =>
      simp only [List.zip_cons_cons, List.map_cons]
      rw [ih l2 (by simpa using h)]

theorem length_insertDesc (c : Combination) (l : List Combination) :
    (insertDesc c l).length = l.length + 1 := by
  induction l with
  | nil => simp [insertDesc]
  | cons d ds ih => rw [insertDesc]; split <;> simp [ih]

theorem mem_insertDesc {x c : Combination} {l : List Combination} :
    x ∈ insertDesc c l ↔ x = c ∨ x ∈ l := by
  induction l with
  | nil => simp [insertDesc]
  | cons d ds ih =>
    rw [insertDesc]
    split
    · simp only [List.mem_cons, ih]
      tauto
    · simp only [List.mem_cons]

theorem length_sortDesc (l : List Combination) :
    (sortDesc l).length = l.length := by
  induction l with
  | nil => rfl
  | cons c cs ih => rw [sortDesc, length_insertDesc, ih, List.length_cons]

theorem mem_sortDesc {x : Combination} {l : List Combination} :
    x ∈ sortDesc l ↔ x ∈ l := by
  induction l with
  | nil => simp [sortDesc]
  | cons c cs ih => rw [sortDesc, mem_insertDesc, ih]; simp

theorem pairwise_insertDesc (c : Combination) {l : List Combination}
    (h : l.Pairwise (fun a b => b.total_similarity ≤ a.total_similarity)) :
    (insertDesc c l).Pairwise (fun a b => b.total_similarity ≤ a.total_similarity) := by
  induction l with
  | nil => simp [insertDesc]
  | cons d ds ih =>
    rw [List.pairwise_cons] at h
    obtain ⟨hd, hds⟩ := h
    rw [insertDesc]
    split
    · next hlt =>
      rw [List.pairwise_cons]
      refine ⟨?_, ih hds⟩
      intro x hx
      rcases mem_insertDesc.mp hx with rfl | hx
      · exact le_of_lt hlt
      · exact hd x hx
    · next hge =>
      rw [List.pairwise_cons]
      refine ⟨?_, List.Pairwise.cons hd hds⟩
      intro x hx
      rcases List.mem_cons.mp hx with rfl | hx
      · exact le_of_not_lt hge
      · exact le_trans (hd x hx) (le_of_not_lt hge)

theorem pairwise_sortDesc (l : List Combination) :
    (sortDesc l).Pairwise (fun a b => b.total_similarity ≤ a.total_similarity) := by
  induction l with
  | nil => simp [sortDesc]
  | cons c cs ih => rw [sortDesc]; exact pairwise_insertDesc c ih

end FCO

namespace FCO

theorem filter_insertDesc_of_ne {c : Combination} {s : ℚ} (l : List Combination)
    (hc : c.total_similarity ≠ s) :
    (insertDesc c l).filter (fun d => decide (d.total_similarity = s)) =
      l.filter (fun d => decide (d.total_similarity = s)) := by
  induction l with
  | nil => simp [insertDesc, hc]
  | cons d ds ih =>
    rw [insertDesc]
    split
    · rw [List.filter_cons, List.filter_cons]
      split <;> rw [ih]
    · rw [List.filter_cons]
      simp [hc]

theorem filter_insertDesc_of_eq {c : Combination} {s : ℚ} {l : List Combination}
    (hc : c.total_similarity = s)
    (hl : l.Pairwise (fun a b => b.total_similarity ≤ a.total_similarity)) :
    (insertDesc c l).filter (fun d => decide (d.total_similarity = s)) =
      c :: l.filter (fun d => decide (d.total_similarity = s)) := by
  induction l with
  | nil => simp [insertDesc, hc]
  | cons d ds ih =>
    rw [List.pairwise_cons] at hl
    obtain ⟨hd, hds⟩ := hl
    rw [insertDesc]
    split
    · next hlt =>
      have hdne : d.total_similarity ≠ s := by
        rw [hc] at hlt
        exact fun hcontra => absurd hcontra (ne_of_gt hlt)
      rw [List.filter_cons, List.filter_cons]
      simp only [hdne, decide_eq_true_eq, if_neg, decide_False]
      simp only [Bool.false_eq_true, if_false]
      exact ih hds
    · rw [List.filter_cons, List.filter_cons]
      simp [hc]

/-- The stable insertion sort preserves, for every key value, the
subsequence of elements carrying that key. -/
theorem filter_sortDesc (s : ℚ) (l : List Combination) :
    (sortDesc l).filter (fun d => decide (d.total_similarity = s)) =
      l.filter (fun d => decide (d.total_similarity = s)) := by
  induction l with
  | nil => simp [sortDesc]
  | cons c cs ih =>
    rw [sortDesc]
    by_cases hc : c.total_similarity = s
    · rw [filter_insertDesc_of_eq hc (pairwise_sortDesc cs), ih, List.filter_cons]
      simp [hc]
    · rw [filter_insertDesc_of_ne _ hc, ih, List.filter_cons]
      simp [hc]

theorem length_filterMap_eq_countP {α β : Type} (f : α → Option β) (l : List α) :
    (l.filterMap f).length = l.countP (fun a => (f a).isSome) := by
  induction l with
  | nil => simp
  | cons a l ih =>
    cases h : f a with
    | none => simp [List.filterMap_cons, h, List.countP_cons, ih]
    | some b => simp [List.filterMap_cons, h, List.countP_cons, ih]

/-- In `combineTuple` the accumulated `total_price` is the sum of the
looked-up prices of the tuple, provided the tuple is as long as the list
of furniture types (always true for tuples of the Cartesian product). -/
theorem combineTuple_price_sum (pl : PriceLookup) (fts : List String)
    (tup : List Candidate) (h : fts.length = tup.length) :
    (((fts.zip tup).map (fun p =>
      { furniture_type := p.1
        catalog_number := p.2.catalog_number
        similarity_score := p.2.similarity_score
        rank := p.2.rank
        price := lookupPrice pl p.2.catalog_number : CombItem })).map
          (fun it => it.price)).sum = tupleTotalPrice pl tup := by
  rw [List.map_map, tupleTotalPrice]
  have : ((fun it : CombItem => it.price) ∘ fun p : String × Candidate =>
      { furniture_type := p.1
        catalog_number := p.2.catalog_number
        similarity_score := p.2.similarity_score
        rank := p.2.rank
        price := lookupPrice pl p.2.catalog_number : CombItem }) =
      fun p : String × Candidate => lookupPrice pl p.2.catalog_number := rfl
  rw [this, map_zip_snd (fun c => lookupPrice pl c.catalog_number) fts tup h]

theorem combineTuple_isSome_iff (pl : PriceLookup) (budget : ℚ)
    (fts : List String) (tup : List Candidate) (h : fts.length = tup.length) :
    (combineTuple pl budget fts tup).isSome ↔
      (tupleTotalPrice pl tup ≤ budget ∧ 0 < tupleTotalPrice pl tup) := by
  rw [combineTuple]
  simp only [combineTuple_price_sum pl fts tup h]
  split
  · next hcond => simpa using hcond
  · next hcond => simpa using hcond

end FCO

namespace FCO

theorem mem_of_mem_uniqueKeys :
    ∀ {l : List String} {x : String}, x ∈ uniqueKeys l → x ∈ l := by
  intro l
  induction l using uniqueKeys.induct with
  | case1 =>
    intro x h
    rw [uniqueKeys] at h
    exact absurd h (List.not_mem_nil x)
  | case2 y ys ih =>
    intro x h
    rw [uniqueKeys] at h
    rcases List.mem_cons.mp h with rfl | h
    · exact List.mem_cons_self _ _
    · exact List.mem_cons_of_mem _ (List.mem_of_mem_filter (ih h))

/-- A successfully loaded store is non-empty and every furniture type in
it has at least one candidate. -/
theorem load_store_spec {rows : List Row} {store : Store}
    (h : load_similarity_results rows = some store) :
    store ≠ [] ∧ ∀ p ∈ store, p.2 ≠ [] := by
  rw [load_similarity_results] at h
  split at h
  · exact absurd h (by simp)
  · next hne =>
    rw [Option.some.injEq] at h
    subst h
    constructor
    · cases rows with
      | nil => simp at hne
      | cons r rs => simp [uniqueKeys]
    · intro p hp
      rw [List.mem_map] at hp
      obtain ⟨name, hname, rfl⟩ := hp
      have hmem : name ∈ rows.map (fun r => r.image_name) :=
        mem_of_mem_uniqueKeys hname
      rw [List.mem_map] at hmem
      obtain ⟨r, hr, hrname⟩ := hmem
      have hfilter : r ∈ rows.filter (fun r => r.image_name == name) := by
        rw [List.mem_filter]
        exact ⟨hr, by simp [hrname]⟩
      have h3 : (rows.filter (fun r => r.image_name == name)).take 3 ≠ [] := by
        cases hcase : rows.filter (fun r => r.image_name == name) with
        | nil => rw [hcase] at hfilter; exact absurd hfilter (List.not_mem_nil r)
        | cons a l => simp [hcase]
      simpa using h3

theorem get_estimated_prices_ne_nil {store : Store} (h0 : store ≠ [])
    (h1 : ∀ p ∈ store, p.2 ≠ []) : get_estimated_prices store ≠ [] := by
  obtain ⟨p, rest, rfl⟩ := List.exists_cons_of_ne_nil h0
  have hp : p.2 ≠ [] := h1 p (List.mem_cons_self _ _)
  obtain ⟨c, cs, hcs⟩ := List.exists_cons_of_ne_nil hp
  rw [get_estimated_prices, List.flatMap_cons, hcs]
  simp

theorem matchedCount_nil_right (store : Store) : matchedCount store [] = 0 := by
  rw [matchedCount, List.countP_eq_zero]
  intro a _
  simp [List.find?]

theorem get_furniture_prices_ne_nil {store : Store} (cp : PriceLookup)
    (h0 : store ≠ []) (h1 : ∀ p ∈ store, p.2 ≠ []) :
    get_furniture_prices store cp ≠ [] := by
  rw [get_furniture_prices]
  split
  · exact get_estimated_prices_ne_nil h0 h1
  · next hm =>
    cases cp with
    | nil => exact absurd (matchedCount_nil_right store) hm
    | cons a l => simp

/-- The furniture-type price range always comes either from the
hard-coded table or is the default `(200, 800)`; in every case the range
is proper and at least `300` wide. -/
theorem priceRangeFor_bounds (ft : String) :
    (priceRangeFor ft).1 < (priceRangeFor ft).2 ∧
      300 ≤ (priceRangeFor ft).2 - (priceRangeFor ft).1 := by
  rw [priceRangeFor]
  rcases hfind : price_ranges.find? (fun p => p.1 == pyLower ft) with _ | p
  · rw [hfind]
    norm_num
  · have hp : p ∈ price_ranges := List.mem_of_find?_eq_some hfind
    rw [hfind]
    simp only [Option.map_some', Option.getD_some]
    simp only [price_ranges, List.mem_cons, List.not_mem_nil, or_false] at hp
    rcases hp with h|h|h|h|h|h|h|h <;> (rw [h]; norm_num)

theorem sub_le_round2 (x : ℚ) : x - 1/200 ≤ round2 x := by
  have h := abs_sub_round (x * 100)
  rw [abs_le] at h
  rw [round2]
  linarith [h.1, h.2]

theorem round2_le_add (x : ℚ) : round2 x ≤ x + 1/200 := by
  have h := abs_sub_round (x * 100)
  rw [abs_le] at h
  rw [round2]
  linarith [h.1, h.2]

end FCO

namespace FCO

/-! ### Evaluation lemmas on the concrete inputs -/

theorem priceRangeFor_sofa : priceRangeFor "sofa" = (800, 2500) := by
  have h : pyLower "sofa" = "sofa" := by decide
  simp [priceRangeFor, price_ranges, h, List.find?]

theorem est_sofa_0 : get_estimated_price_for_type "sofa" 0 = 306667/100 := by
  simp only [get_estimated_price_for_type, priceRangeFor_sofa]
  rw [round2, round_eq]
  norm_num

theorem est_sofa_1 : get_estimated_price_for_type "sofa" 1 = 2500 := by
  simp only [get_estimated_price_for_type, priceRangeFor_sofa]
  rw [round2, round_eq]
  norm_num

theorem est_sofa_2 : get_estimated_price_for_type "sofa" 2 = 193333/100 := by
  simp only [get_estimated_price_for_type, priceRangeFor_sofa]
  rw [round2, round_eq]
  norm_num

theorem loadSofaOnly_eq :
    load_similarity_results rowsSofaOnly = some storeSofaOnly := by
  have h : pyStripSuffix "_extracted_grayscale.png" "sofa_extracted_grayscale.png" =
      "sofa" := by decide
  norm_num [load_similarity_results, rowsSofaOnly, storeSofaOnly, uniqueKeys, h,
    toCandidate, List.filter]

theorem genA_eq : generate_combinations storeA plA 1600 = [comboA] := by
  have l1 : lookupPrice plA "S1" = 1000 := by simp [lookupPrice, plA, List.find?]
  have l2 : lookupPrice plA "S2" = 1200 := by simp [lookupPrice, plA, List.find?]
  have l3 : lookupPrice plA "T1" = 500 := by simp [lookupPrice, plA, List.find?]
  norm_num [generate_combinations, filteredCombos, rawCombos, cartProd, storeA,
    combineTuple, l1, l2, l3, sortDesc, insertDesc, comboA,
    List.filterMap_cons, List.zip]

theorem comboA_mem : comboA ∈ generate_combinations storeA plA 1600 := by
  rw [genA_eq]
  exact List.mem_singleton.mpr rfl

theorem tupGap_mem : tupGap ∈ rawCombos storeGap := by
  simp [rawCombos, cartProd, storeGap, tupGap]

end FCO

namespace FCO

/-! ### Claim theorems -/

/-- Claim C1: every combination emitted by `generate_combinations`
satisfies `0 < total_price ≤ budget`, where `total_price` is the sum of
the resolved prices of its items. -/
theorem c1_emitted_within_budget (store : Store) (pl : PriceLookup)
    (budget : ℚ) (c : Combination)
    (hc : c ∈ generate_combinations store pl budget) :
    (0 < c.total_price ∧ c.total_price ≤ budget) ∧
      c.total_price = (c.items.map (fun it => it.price)).sum := by
  rw [generate_combinations, mem_sortDesc, filteredCombos,
    List.mem_filterMap] at hc
  obtain ⟨tup, _, heq⟩ := hc
  simp only [combineTuple] at heq
  split at heq
  · next hcond =>
    rw [Option.some.injEq] at heq
    subst heq
    exact ⟨⟨hcond.2, hcond.1⟩, rfl⟩
  · exact absurd heq (by simp)

/-- Witness for C1 at the Scenario A input. -/
theorem c1_witness :
    comboA ∈ generate_combinations storeA plA 1600 ∧
      ((0 < comboA.total_price ∧ comboA.total_price ≤ 1600) ∧
        comboA.total_price = (comboA.items.map (fun it => it.price)).sum) :=
  ⟨comboA_mem, c1_emitted_within_budget storeA plA 1600 comboA comboA_mem⟩

/-- Claim C2: the raw combination count is the product of the candidate
list lengths, the filtered result is never larger, and it reaches the
product exactly when every raw combination satisfies the budget
constraint. -/
theorem c2_raw_count (store : Store) (pl : PriceLookup) (budget : ℚ)
    (_hne : ∀ p ∈ store, p.2 ≠ []) :
    (rawCombos store).length = (store.map (fun p => p.2.length)).prod
  ∧ (generate_combinations store pl budget).length ≤
      (store.map (fun p => p.2.length)).prod
  ∧ ((generate_combinations store pl budget).length =
        (store.map (fun p => p.2.length)).prod ↔
      ∀ tup ∈ rawCombos store,
        0 < tupleTotalPrice pl tup ∧ tupleTotalPrice pl tup ≤ budget) := by
  have hraw : (rawCombos store).length = (store.map (fun p => p.2.length)).prod := by
    rw [rawCombos, length_cartProd, List.map_map]
    rfl
  have hlen : (generate_combinations store pl budget).length =
      (rawCombos store).countP
        (fun tup => (combineTuple pl budget (store.map Prod.fst) tup).isSome) := by
    rw [generate_combinations, length_sortDesc, filteredCombos,
      length_filterMap_eq_countP]
  have hiff : ∀ tup ∈ rawCombos store,
      ((combineTuple pl budget (store.map Prod.fst) tup).isSome ↔
        (0 < tupleTotalPrice pl tup ∧ tupleTotalPrice pl tup ≤ budget)) := by
    intro tup htup
    have hl : (store.map Prod.fst).length = tup.length := by
      rw [List.length_map, mem_cartProd_length htup, List.length_map]
    rw [combineTuple_isSome_iff pl budget _ tup hl]
    tauto
  refine ⟨hraw, ?_, ?_⟩
  · rw [hlen, ← hraw, rawCombos]
    exact List.countP_le_length _
  · rw [hlen, ← hraw]
    constructor
    · intro hcount tup htup
      exact (hiff tup htup).mp (List.countP_eq_length.mp hcount tup htup)
    · intro hall
      exact List.countP_eq_length.mpr (fun tup htup => (hiff tup htup).mpr (hall tup htup))

/-- Witness for C2 at a two-category, three-candidates-each store: nine
raw combinations. -/
theorem c2_witness :
    ((∀ p ∈ storeC, p.2 ≠ []) ∧ (rawCombos storeC).length = 9) ∧
      ((rawCombos storeC).length = (storeC.map (fun p => p.2.length)).prod
     ∧ (generate_combinations storeC plC 2000).length ≤
         (storeC.map (fun p => p.2.length)).prod
     ∧ ((generate_combinations storeC plC 2000).length =
           (storeC.map (fun p => p.2.length)).prod ↔
         ∀ tup ∈ rawCombos storeC,
           0 < tupleTotalPrice plC tup ∧ tupleTotalPrice plC tup ≤ 2000)) :=
  ⟨⟨by simp [storeC], by norm_num [rawCombos, cartProd, storeC]⟩,
    c2_raw_count storeC plC 2000 (by simp [storeC])⟩

/-- Claim C3: the returned list is non-increasing in `total_similarity`,
and combinations with equal `total_similarity` keep the relative order in
which the Cartesian-product enumeration produced them. -/
theorem c3_sorted_stable (store : Store) (pl : PriceLookup) (budget : ℚ) :
    List.Pairwise (fun a b => b.total_similarity ≤ a.total_similarity)
      (generate_combinations store pl budget)
  ∧ ∀ s : ℚ,
      (generate_combinations store pl budget).filter
        (fun c => decide (c.total_similarity = s)) =
      (filteredCombos store pl budget).filter
        (fun c => decide (c.total_similarity = s)) :=
  ⟨pairwise_sortDesc (filteredCombos store pl budget),
    fun s => filter_sortDesc s (filteredCombos store pl budget)⟩

/-- Claim C4: on Scenario A, exactly the combination `(S1, T1)` is
returned with `total_price` 1500, `total_similarity` 1.6 and rank 1,
while `(S2, T1)` with `total_price` 1700 is rejected. -/
theorem c4_scenario_a :
    generate_combinations storeA plA 1600 = [comboA]
  ∧ comboA.total_price = 1500
  ∧ comboA.total_similarity = 8/5
  ∧ comboA.items.map (fun it => it.catalog_number) = ["S1", "T1"]
  ∧ (save_combinations_to_csv (generate_combinations storeA plA 1600)).map
      (fun r => r.combination_rank) = [1, 1]
  ∧ combineTuple plA 1600 (storeA.map Prod.fst)
      [⟨"S2", 4/5, 2⟩, ⟨"T1", 7/10, 1⟩] = none
  ∧ tupleTotalPrice plA [⟨"S2", 4/5, 2⟩, ⟨"T1", 7/10, 1⟩] = 1700 := by
  have l2 : lookupPrice plA "S2" = 1200 := by simp [lookupPrice, plA, List.find?]
  have l3 : lookupPrice plA "T1" = 500 := by simp [lookupPrice, plA, List.find?]
  refine ⟨genA_eq, rfl, rfl, rfl, ?_, ?_, ?_⟩
  · rw [genA_eq]
    norm_num [save_combinations_to_csv, comboA, List.enum]
  · norm_num [combineTuple, storeA, l2, l3, List.zip]
  · norm_num [tupleTotalPrice, l2, l3]

end FCO

namespace FCO

/-- Claim C5 (code evidence): the estimator is fed 0-based `enumerate`
positions, so the top candidate of a sofa list gets
`round(800 + 1700 * 4/3, 2) = 3066.67`, not the
`min + (max - min) * (K - r + 1) / K = 2500` that the documented 1-based
formula (and the function's own inline comment) prescribes for rank 1;
the estimate even exceeds the configured maximum price. -/
theorem c5_estimator_misindexed :
    get_estimated_prices storeEst =
      [("SA", 306667/100), ("SB", 2500), ("SC", 193333/100)]
  ∧ specRankEstimate "sofa" 1 = 2500
  ∧ get_estimated_price_for_type "sofa" 0 = 306667/100
  ∧ get_estimated_price_for_type "sofa" 0 ≠ specRankEstimate "sofa" 1
  ∧ (priceRangeFor "sofa").2 < get_estimated_price_for_type "sofa" 0 := by
  have hspec : specRankEstimate "sofa" 1 = 2500 := by
    simp only [specRankEstimate, priceRangeFor_sofa]
    norm_num
  refine ⟨?_, hspec, est_sofa_0, ?_, ?_⟩
  · simp [get_estimated_prices, storeEst, List.enum, List.enumFrom,
      est_sofa_0, est_sofa_1, est_sofa_2]
  · rw [est_sofa_0, hspec]
    norm_num
  · rw [est_sofa_0, priceRangeFor_sofa]
    norm_num

/-- Claim C6 (code evidence): with a partially matching price map the
optimizer keeps the map unchanged, so a candidate absent from it is
priced 0 during enumeration instead of receiving the fallback estimator's
price for its category and rank. -/
theorem c6_price_gap_not_estimated :
    get_furniture_prices storePartial plPartial = plPartial
  ∧ lookupPrice (get_furniture_prices storePartial plPartial) "B1" = 0
  ∧ get_estimated_price_for_type "sofa" 1 = 2500
  ∧ lookupPrice (get_furniture_prices storePartial plPartial) "B1" ≠
      get_estimated_price_for_type "sofa" 1 := by
  have hm : matchedCount storePartial plPartial = 1 := by
    simp [matchedCount, storePartial, plPartial, List.countP_cons, List.find?]
  have hfp : get_furniture_prices storePartial plPartial = plPartial := by
    rw [get_furniture_prices, if_neg]
    rw [hm]
    norm_num
  have hlook : lookupPrice (get_furniture_prices storePartial plPartial) "B1" = 0 := by
    rw [hfp]
    simp [lookupPrice, plPartial, List.find?]
  refine ⟨hfp, hlook, est_sofa_1, ?_⟩
  rw [hlook, est_sofa_1]
  norm_num

end FCO

namespace FCO

/-- Claim C7 counterexample: a similarity file whose rows cover only the
sofa category loads successfully — no typed error is raised for the
"table" category, which ends up with no candidates at all (it is simply
absent from the store). -/
theorem c7_counterexample :
    load_similarity_results rowsSofaOnly = some storeSofaOnly ∧
      "table" ∉ storeSofaOnly.map Prod.fst :=
  ⟨loadSofaOnly_eq, by simp [storeSofaOnly]⟩

/-- Claim C7 amended: the loader has no per-category emptiness check and
no typed error; a category with no rows is merely absent from the store,
and every category of a successfully loaded store has at least one
candidate.  Loading fails (a boolean failure, aborting the run before any
output is written) exactly when the similarity file is missing or has no
rows. -/
theorem c7_amended_load_contract (rows : List Row) (cp : PriceLookup)
    (b : ℚ) (store : Store)
    (h : load_similarity_results rows = some store) :
    (∀ p ∈ store, p.2 ≠ []) ∧
      load_similarity_results ([] : List Row) = none ∧
      mainRun [] cp b = Outcome.loadFailed := by
  refine ⟨(load_store_spec h).2, ?_, ?_⟩
  · rw [load_similarity_results]
    simp
  · simp [mainRun, load_similarity_results]

/-- Witness for the amended C7 at the sofa-only input. -/
theorem c7_witness :
    load_similarity_results rowsSofaOnly = some storeSofaOnly ∧
      ((∀ p ∈ storeSofaOnly, p.2 ≠ []) ∧
        load_similarity_results ([] : List Row) = none ∧
        mainRun [] [] 0 = Outcome.loadFailed) :=
  ⟨loadSofaOnly_eq,
    c7_amended_load_contract rowsSofaOnly [] 0 storeSofaOnly loadSofaOnly_eq⟩

end FCO

namespace FCO

/-- Claim C8: when no raw combination passes the budget filter, the run
ends in the explicit "no combinations found" outcome — zero rows are
written — and that outcome is distinct from the structural failure and
from every success outcome. -/
theorem c8_empty_result_status (rows : List Row) (cp : PriceLookup)
    (budget : ℚ) (store : Store)
    (hload : load_similarity_results rows = some store)
    (hnone : ∀ tup ∈ rawCombos store,
      ¬(0 < tupleTotalPrice (get_furniture_prices store cp) tup ∧
        tupleTotalPrice (get_furniture_prices store cp) tup ≤ budget)) :
    mainRun rows cp budget = Outcome.noCombinations ∧
      Outcome.noCombinations ≠ Outcome.loadFailed ∧
      ∀ out, Outcome.noCombinations ≠ Outcome.success out := by
  obtain ⟨h0, h1⟩ := load_store_spec hload
  have hpl : get_furniture_prices store cp ≠ [] :=
    get_furniture_prices_ne_nil cp h0 h1
  have hgen : generate_combinations store (get_furniture_prices store cp) budget = [] := by
    rw [generate_combinations]
    have hfil : filteredCombos store (get_furniture_prices store cp) budget = [] := by
      rw [filteredCombos, List.filterMap_eq_nil_iff]
      intro tup htup
      have hl : (store.map Prod.fst).length = tup.length := by
        rw [List.length_map, mem_cartProd_length htup, List.length_map]
      rcases hopt : combineTuple (get_furniture_prices store cp) budget
          (store.map Prod.fst) tup with _ | c
      · rfl
      · exfalso
        have hs : (combineTuple (get_furniture_prices store cp) budget
            (store.map Prod.fst) tup).isSome := by
          rw [hopt]
          rfl
        rw [combineTuple_isSome_iff _ _ _ _ hl] at hs
        exact hnone tup htup ⟨hs.2, hs.1⟩
    rw [hfil]
    rfl
  have hempty : (get_furniture_prices store cp).isEmpty = false := by
    cases hcase : get_furniture_prices store cp with
    | nil => exact absurd hcase hpl
    | cons a l => rfl
  refine ⟨?_, by simp, by simp⟩
  simp only [mainRun, hload, hempty, hgen]
  simp

/-- The sofa-only store with an empty catalog and budget 0 rejects its
single raw combination. -/
theorem sofaOnly_budget0_none :
    ∀ tup ∈ rawCombos storeSofaOnly,
      ¬(0 < tupleTotalPrice (get_furniture_prices storeSofaOnly []) tup ∧
        tupleTotalPrice (get_furniture_prices storeSofaOnly []) tup ≤ 0) := by
  have hfp : get_furniture_prices storeSofaOnly [] =
      [("S1", get_estimated_price_for_type "sofa" 0)] := by
    rw [get_furniture_prices, if_pos (matchedCount_nil_right _)]
    simp [get_estimated_prices, storeSofaOnly, List.enum]
  intro tup htup
  simp only [rawCombos, cartProd, storeSofaOnly, List.map_cons, List.map_nil,
    List.flatMap_cons, List.flatMap_nil, List.map_singleton, List.append_nil,
    List.mem_singleton] at htup
  subst htup
  rw [hfp]
  simp only [tupleTotalPrice, List.map_cons, List.map_nil, List.sum_cons,
    List.sum_nil, lookupPrice, List.find?]
  norm_num [est_sofa_0]

/-- Witness for C8: one sofa candidate, no catalog prices, budget 0. -/
theorem c8_witness :
    (load_similarity_results rowsSofaOnly = some storeSofaOnly ∧
      ∀ tup ∈ rawCombos storeSofaOnly,
        ¬(0 < tupleTotalPrice (get_furniture_prices storeSofaOnly []) tup ∧
          tupleTotalPrice (get_furniture_prices storeSofaOnly []) tup ≤ 0)) ∧
      (mainRun rowsSofaOnly [] 0 = Outcome.noCombinations ∧
        Outcome.noCombinations ≠ Outcome.loadFailed ∧
        ∀ out, Outcome.noCombinations ≠ Outcome.success out) :=
  ⟨⟨loadSofaOnly_eq, sofaOnly_budget0_none⟩,
    c8_empty_result_status rowsSofaOnly [] 0 storeSofaOnly loadSofaOnly_eq
      sofaOnly_budget0_none⟩

end FCO

namespace FCO

/-- What a successful `combineTuple` records: total price is the tuple's
looked-up price sum and the items are the tuple's candidates in order. -/
theorem combineTuple_some_spec {pl : PriceLookup} {budget : ℚ}
    {fts : List String} {tup : List Candidate} {c : Combination}
    (hl : fts.length = tup.length)
    (hc : combineTuple pl budget fts tup = some c) :
    c.total_price = tupleTotalPrice pl tup ∧
      c.items.map (fun it => it.catalog_number) =
        tup.map (fun it => it.catalog_number) := by
  simp only [combineTuple] at hc
  split at hc
  · rw [Option.some.injEq] at hc
    subst hc
    refine ⟨combineTuple_price_sum pl fts tup hl, ?_⟩
    rw [List.map_map]
    exact map_zip_snd (fun x : Candidate => x.catalog_number) fts tup hl
  · exact absurd hc (by simp)

/-- Claim C9: a candidate whose catalog number is missing from the price
map resolves to price 0; a tuple whose priced items still sum strictly
between 0 and the budget is emitted (with the missing items contributing
nothing), while a tuple all of whose candidates lack prices totals 0 and
is always rejected. -/
theorem c9_missing_price_zero (store : Store) (pl : PriceLookup)
    (budget : ℚ) (tup : List Candidate) (htup : tup ∈ rawCombos store) :
    (∀ cn, pl.find? (fun p => p.1 == cn) = none → lookupPrice pl cn = 0)
  ∧ (0 < tupleTotalPrice pl tup → tupleTotalPrice pl tup < budget →
      ∃ c ∈ generate_combinations store pl budget,
        c.items.map (fun it => it.catalog_number) =
            tup.map (fun it => it.catalog_number) ∧
          c.total_price = tupleTotalPrice pl tup)
  ∧ ((∀ it ∈ tup, pl.find? (fun p => p.1 == it.catalog_number) = none) →
      combineTuple pl budget (store.map Prod.fst) tup = none) := by
  have hl : (store.map Prod.fst).length = tup.length := by
    rw [List.length_map, mem_cartProd_length htup, List.length_map]
  refine ⟨?_, ?_, ?_⟩
  · intro cn hfind
    rw [lookupPrice, hfind]
    rfl
  · intro h1 h2
    have hs : (combineTuple pl budget (store.map Prod.fst) tup).isSome := by
      rw [combineTuple_isSome_iff pl budget _ tup hl]
      exact ⟨le_of_lt h2, h1⟩
    obtain ⟨c, hc⟩ := Option.isSome_iff_exists.mp hs
    obtain ⟨hprice, hcat⟩ := combineTuple_some_spec hl hc
    refine ⟨c, ?_, hcat, hprice⟩
    rw [generate_combinations, mem_sortDesc, filteredCombos, List.mem_filterMap]
    exact ⟨tup, htup, hc⟩
  · intro hall
    have hzero : tupleTotalPrice pl tup = 0 := by
      rw [tupleTotalPrice]
      apply List.sum_eq_zero
      intro x hx
      rw [List.mem_map] at hx
      obtain ⟨it, hit, rfl⟩ := hx
      rw [lookupPrice, hall it hit]
      rfl
    rcases hopt : combineTuple pl budget (store.map Prod.fst) tup with _ | c
    · rfl
    · exfalso
      have hs : (combineTuple pl budget (store.map Prod.fst) tup).isSome := by
        rw [hopt]
        rfl
      rw [combineTuple_isSome_iff pl budget _ tup hl, hzero] at hs
      exact absurd hs.2 (by norm_num)

/-- Witness for C9 at the two-category store whose table candidate has no
price. -/
theorem c9_witness :
    tupGap ∈ rawCombos storeGap ∧
      ((∀ cn, plGap.find? (fun p => p.1 == cn) = none →
          lookupPrice plGap cn = 0)
     ∧ (0 < tupleTotalPrice plGap tupGap → tupleTotalPrice plGap tupGap < 1000 →
         ∃ c ∈ generate_combinations storeGap plGap 1000,
           c.items.map (fun it => it.catalog_number) =
               tupGap.map (fun it => it.catalog_number) ∧
             c.total_price = tupleTotalPrice plGap tupGap)
     ∧ ((∀ it ∈ tupGap,
          plGap.find? (fun p => p.1 == it.catalog_number) = none) →
         combineTuple plGap 1000 (storeGap.map Prod.fst) tupGap = none)) :=
  ⟨tupGap_mem, c9_missing_price_zero storeGap plGap 1000 tupGap tupGap_mem⟩

end FCO

namespace FCO

/-- Claim C10: `_get_estimated_prices` feeds the estimator the 0-based
list position, the estimate at position `i` is
`round(min + (max - min) * (4 - i) / 3, 2)`, every configured range is
proper (`min < max`), the position-0 estimate strictly exceeds the
range's maximum, and estimates strictly decrease with list position. -/
theorem c10_estimator_positional (ft : String) (i : ℕ)
    (items : List Candidate) :
    get_estimated_price_for_type ft i =
      round2 ((priceRangeFor ft).1 +
        ((priceRangeFor ft).2 - (priceRangeFor ft).1) *
          (((4 : ℚ) - (i : ℚ)) / 3))
  ∧ (get_estimated_prices [(ft, items)])[i]? =
      items[i]?.map (fun c => (c.catalog_number, get_estimated_price_for_type ft i))
  ∧ (priceRangeFor ft).1 < (priceRangeFor ft).2
  ∧ (priceRangeFor ft).2 < get_estimated_price_for_type ft 0
  ∧ get_estimated_price_for_type ft (i + 1) < get_estimated_price_for_type ft i := by
  obtain ⟨hlt, hwide⟩ := priceRangeFor_bounds ft
  refine ⟨rfl, ?_, hlt, ?_, ?_⟩
  · rw [get_estimated_prices]
    simp only [List.flatMap_cons, List.flatMap_nil, List.append_nil]
    simp only [List.getElem?_map, List.getElem?_enum]
    cases items[i]? <;> simp
  · have hr := sub_le_round2 ((priceRangeFor ft).1 +
      ((priceRangeFor ft).2 - (priceRangeFor ft).1) *
        (((4 : ℚ) - ((0 : ℕ) : ℚ)) / 3))
    simp only [get_estimated_price_for_type]
    simp only [Nat.cast_zero] at hr ⊢
    linarith [hr, hwide]
  · have ha := sub_le_round2 ((priceRangeFor ft).1 +
      ((priceRangeFor ft).2 - (priceRangeFor ft).1) *
        (((4 : ℚ) - (i : ℚ)) / 3))
    have hb := round2_le_add ((priceRangeFor ft).1 +
      ((priceRangeFor ft).2 - (priceRangeFor ft).1) *
        (((4 : ℚ) - (((i : ℕ) + 1 : ℕ) : ℚ)) / 3))
    simp only [get_estimated_price_for_type]
    have hcast : ((((i : ℕ) + 1 : ℕ)) : ℚ) = (i : ℚ) + 1 := by
      push_cast
      ring
    rw [hcast] at hb ⊢
    linarith [ha, hb, hwide]

end FCO
